import Mathlib

/-!
Shallow embedding of the shopping-memo Flask application (`app.py`).

The persistence store is modelled as in-memory lists of rows with
autoincrement primary-key counters; the session is the optional id of the
authenticated user; request handlers become pure functions from the store,
session and form data to the updated store and an HTTP-level outcome
(redirect with an optional flash notice, a rendered template, or a 404).
The werkzeug password-hash pair `generate_password_hash` /
`check_password_hash` is modelled by its contract: checking a password
against a generated hash succeeds exactly when the passwords coincide.
`str.strip()` is modelled by `strip` below.
-/

namespace App

/-- Model of a werkzeug salted password hash: an opaque value from which the
kernel contract `check_password_hash (generate_password_hash p) q = (p = q)`
is definable.  The application never reads the field directly. -/
structure PwHash where
  pw : String
deriving DecidableEq

/-- `werkzeug.security.generate_password_hash`, modelled by its contract. -/
def generate_password_hash (p : String) : PwHash := ⟨p⟩

/-- `werkzeug.security.check_password_hash`, modelled by its contract. -/
def check_password_hash (h : PwHash) (p : String) : Bool := h.pw == p

/-- Row of the `user` table (`class User(db.Model, UserMixin)`). -/
structure User where
  id : Nat
  username : String
  password_hash : PwHash
deriving DecidableEq

/-- Row of the `memo` table (`class Memo(db.Model)`).  The `content` column
is nullable (`db.Text, nullable=True`), hence `Option String`;
`created_at` is a timestamp modelled as a natural number. -/
structure Memo where
  id : Nat
  title : String
  content : Option String
  created_at : Nat
  user_id : Nat
deriving DecidableEq

/-- The relational store: both tables plus the autoincrement counters for
their integer primary keys. -/
structure DB where
  users : List User
  memos : List Memo
  nextUserId : Nat
  nextMemoId : Nat
deriving DecidableEq

/-- The empty database (state after `db.create_all()` on a fresh file). -/
def DB.empty : DB := ⟨[], [], 1, 1⟩

/-- Submitted form data; `none` models an absent field, so
`request.form.get(k, "")` is `(f.k).getD ""`. -/
structure Form where
  username : Option String
  password : Option String
  title : Option String
  content : Option String
deriving DecidableEq

/-- `request.form.get(key, default)`. -/
def formGet (field : Option String) (dflt : String) : String := field.getD dflt

/-- The ASCII whitespace characters removed by Python `str.strip()`. -/
def isPyWhitespace (c : Char) : Bool :=
  c = ' ' || c = '\t' || c = '\n' || c = '\r' || c = '\x0b' || c = '\x0c'

/-- Python `str.strip()`: drop leading and trailing whitespace. -/
def strip (s : String) : String :=
  ⟨(((s.data.dropWhile isPyWhitespace).reverse.dropWhile isPyWhitespace).reverse)⟩

/-- HTTP request method (only GET and POST occur in the app). -/
inductive Method
  | get
  | post
deriving DecidableEq

/-- Redirect targets used by `url_for` in the app. -/
inductive Route
  | index
  | register
  | login
  | new_memo
  | edit_memo (memo_id : Nat)
deriving DecidableEq

/-- Handler outcome: a redirect carrying the flash notice posted by the
handler (if any), a rendered template, or the 404 page raised by
`get_or_404`. -/
inductive Response
  | redirect (target : Route) (notice : Option String)
  | render (template : String)
  | notFound
deriving DecidableEq

/-- `User.query.filter_by(username=u).first()`. -/
def findUserByName (db : DB) (u : String) : Option User :=
  db.users.find? (fun x => x.username = u)

/-- `Memo.query.get_or_404(memo_id)` before the 404 is raised: primary-key
lookup returning `none` when no row has that id. -/
def get_or_404 (db : DB) (memo_id : Nat) : Option Memo :=
  db.memos.find? (fun m => m.id = memo_id)

/-- The `register` view (`@app.route("/register", methods=["GET","POST"])`).
The username is stripped; the password is taken as submitted. -/
def register (db : DB) (method : Method) (form : Form) : DB × Response :=
  match method with
  | .post =>
    let username := strip (formGet form.username "")
    let password := formGet form.password ""
    if username = "" ∨ password = "" then
      (db, .redirect .register (some "ユーザー名とパスワードは必須です。"))
    else if (findUserByName db username).isSome then
      (db, .redirect .register (some "そのユーザー名は既に使われています。"))
    else
      let u : User :=
        { id := db.nextUserId
          username := username
          password_hash := generate_password_hash password }
      ({ db with users := db.users ++ [u], nextUserId := db.nextUserId + 1 },
       .redirect .login (some "アカウントを作成しました。ログインしてください。"))
  | .get => (db, .render "register.html")

/-- The `login` view.  On success `login_user` binds the session to the
user's id; on any failure the session is unchanged and the one generic
notice is flashed. -/
def login (db : DB) (sess : Option Nat) (method : Method) (form : Form) :
    Option Nat × Response :=
  match method with
  | .post =>
    let username := strip (formGet form.username "")
    let password := formGet form.password ""
    match findUserByName db username with
    | some user =>
      if check_password_hash user.password_hash password then
        (some user.id, .redirect .index none)
      else
        (sess, .redirect .login (some "ユーザー名またはパスワードが違います。"))
    | none =>
      (sess, .redirect .login (some "ユーザー名またはパスワードが違います。"))
  | .get => (sess, .render "login.html")

/-- Descending `created_at` order used by
`Memo.query...order_by(Memo.created_at.desc())`. -/
def memoDesc (a b : Memo) : Prop := b.created_at ≤ a.created_at

instance : DecidableRel memoDesc :=
  fun a b => inferInstanceAs (Decidable (b.created_at ≤ a.created_at))

instance : IsTotal Memo memoDesc :=
  ⟨fun a b => (Nat.le_total a.created_at b.created_at).symm⟩

instance : IsTrans Memo memoDesc :=
  ⟨fun _ _ _ hab hbc => Nat.le_trans hbc hab⟩

/-- The memo list computed by the `index` view for the authenticated user
`uid`: the rows with `user_id == uid`, ordered by `created_at` descending. -/
def index (db : DB) (uid : Nat) : List Memo :=
  List.insertionSort memoDesc (db.memos.filter (fun m => m.user_id = uid))

/-- The `new_memo` view (`/memo/new`), for the authenticated user `uid`;
`now` is the server clock value the database assigns to `created_at`
(`server_default=db.func.now()`). -/
def new_memo (db : DB) (uid : Nat) (now : Nat) (method : Method)
    (form : Form) : DB × Response :=
  match method with
  | .post =>
    let title := strip (formGet form.title "")
    let content := strip (formGet form.content "")
    if title = "" then
      (db, .redirect .new_memo (some "タイトルは必須です。"))
    else
      let m : Memo :=
        { id := db.nextMemoId
          title := title
          content := some content
          created_at := now
          user_id := uid }
      ({ db with memos := db.memos ++ [m], nextMemoId := db.nextMemoId + 1 },
       .redirect .index (some "メモを保存しました。"))
  | .get => (db, .render "memo_form.html")

/-- In-place row update performed by assigning to the loaded ORM object and
committing: the row with the given primary key is replaced. -/
def updateMemo (db : DB) (memo_id : Nat) (m2 : Memo) : DB :=
  { db with memos := db.memos.map (fun m => if m.id = memo_id then m2 else m) }

/-- The `edit_memo` view (`/memo/<int:memo_id>/edit`).  `get_or_404` runs
first, then the ownership check, then (POST only) the unvalidated
overwrite of `title` and `content`. -/
def edit_memo (db : DB) (uid : Nat) (memo_id : Nat) (method : Method)
    (form : Form) : DB × Response :=
  match get_or_404 db memo_id with
  | none => (db, .notFound)
  | some memo =>
    if memo.user_id ≠ uid then
      (db, .redirect .index (some "その操作はできません。"))
    else
      match method with
      | .post =>
        let memo2 :=
          { memo with
              title := strip (formGet form.title "")
              content := some (strip (formGet form.content "")) }
        (updateMemo db memo_id memo2,
         .redirect .index (some "メモを更新しました。"))
      | .get => (db, .render "memo_form.html")

/-- The `delete_memo` view (`/memo/<int:memo_id>/delete`, POST only).
`get_or_404`, then the ownership check, then `db.session.delete(memo)`. -/
def delete_memo (db : DB) (uid : Nat) (memo_id : Nat) : DB × Response :=
  match get_or_404 db memo_id with
  | none => (db, .notFound)
  | some memo =>
    if memo.user_id ≠ uid then
      (db, .redirect .index (some "その操作はできません。"))
    else
      ({ db with memos := db.memos.filter (fun m => ¬ m.id = memo.id) },
       .redirect .index (some "メモを削除しました。"))

/-- `markupsafe.escape` on one character: the five markup-significant
characters become entity references, every other character is kept. -/
def escapeChar (c : Char) : List Char :=
  if c = '&' then ['&', 'a', 'm', 'p', ';']
  else if c = '<' then ['&', 'l', 't', ';']
  else if c = '>' then ['&', 'g', 't', ';']
  else if c = '\'' then ['&', '#', '3', '9', ';']
  else if c = '"' then ['&', '#', '3', '4', ';']
  else [c]

/-- `markupsafe.escape` on a character list. -/
def escapeList : List Char → List Char
  | [] => []
  | c :: cs => escapeChar c ++ escapeList cs

/-- `markupsafe.escape` as a string function. -/
def escape (s : String) : String := ⟨escapeList s.data⟩

/-- The line-boundary characters recognised by Python `str.splitlines`. -/
def isLineBoundary (c : Char) : Bool :=
  c = '\n' || c = '\x0b' || c = '\x0c' || c = '\r' ||
  c = '\x1c' || c = '\x1d' || c = '\x1e' ||
  c = '\x85' || c = '\u2028' || c = '\u2029'

/-- Python `str.splitlines` on a character list: `"\r\n"` counts as one
boundary, a trailing boundary yields no trailing empty line, and the empty
string yields no lines. -/
def splitlinesList : List Char → List (List Char)
  | [] => []
  | c :: rest =>
    if isLineBoundary c then
      match rest with
      | [] => [[]]
      | d :: rest2 =>
        if c = '\r' ∧ d = '\n' then [] :: splitlinesList rest2
        else [] :: splitlinesList (d :: rest2)
    else
      match splitlinesList rest with
      | [] => [[c]]
      | l :: ls => (c :: l) :: ls

/-- Python `str.splitlines` as a string function. -/
def splitlines (s : String) : List String :=
  (splitlinesList s.data).map (fun l => ⟨l⟩)

/-- The `nl2br` Jinja filter: `""` on `None`, otherwise
`"<br>\n".join(escape(s).splitlines())`. -/
def nl2br_filter (s : Option String) : String :=
  match s with
  | none => ""
  | some s => String.intercalate "<br>\n" (splitlines (escape s))

/-! ## Claim theorems -/

/-- Concrete database used in witnesses: one user `alice` (id 1, password
`pw123`) owning one memo (id 1). -/
def dbOne : DB :=
  { users := [⟨1, "alice", generate_password_hash "pw123"⟩]
    memos := [⟨1, "Shopping", some "milk", 10, 1⟩]
    nextUserId := 2
    nextMemoId := 2 }

/-- C1: for every stored memo `m` and every authenticated user whose id
differs from `m.user_id`, both the edit handler (any method) and the
delete handler deny the request with a redirect to the list and the
denial notice, and return the database unchanged — so the ownership check
happens before any mutation is applied. -/
theorem edit_delete_foreign_memo_denied (db : DB) (uidB memo_id : Nat)
    (method : Method) (form : Form) (m : Memo)
    (hm : get_or_404 db memo_id = some m) (hneq : m.user_id ≠ uidB) :
    edit_memo db uidB memo_id method form =
      (db, .redirect .index (some "その操作はできません。")) ∧
    delete_memo db uidB memo_id =
      (db, .redirect .index (some "その操作はできません。")) := by
  refine ⟨?_, ?_⟩ <;> simp [edit_memo, delete_memo, hm, hneq]

/-- Witness for the C1 theorem: user 2 can neither edit nor delete the
memo of `dbOne`, which user 1 owns. -/
theorem edit_delete_foreign_memo_denied_witness :
    edit_memo dbOne 2 1 .post ⟨none, none, some "x", some "y"⟩ =
      (dbOne, .redirect .index (some "その操作はできません。")) ∧
    delete_memo dbOne 2 1 =
      (dbOne, .redirect .index (some "その操作はできません。")) :=
  edit_delete_foreign_memo_denied dbOne 2 1 .post ⟨none, none, some "x", some "y"⟩
    ⟨1, "Shopping", some "milk", 10, 1⟩ (by decide) (by decide)

/-- C2 counterexample: the password is **not** stripped by `register`.  A
POST whose password is a single space — empty after stripping — passes
validation, succeeds, and creates a user, contradicting the claim as
stated. -/
theorem register_password_not_stripped_cex :
    strip (formGet (Form.mk (some "bob") (some " ") none none).password "") = "" ∧
    (register DB.empty .post (Form.mk (some "bob") (some " ") none none)).2 =
      .redirect .login (some "アカウントを作成しました。ログインしてください。") ∧
    (register DB.empty .post (Form.mk (some "bob") (some " ") none none)).1.users ≠
      DB.empty.users := by
  decide

/-- C2 (amended): registration strips the username but not the password.
Whenever the stripped username is empty or the submitted password is the
empty string, registration fails with the validation notice and leaves
the database — in particular the user table — unchanged. -/
theorem register_empty_field_rejected (db : DB) (form : Form)
    (h : strip (formGet form.username "") = "" ∨ formGet form.password "" = "") :
    register db .post form =
      (db, .redirect .register (some "ユーザー名とパスワードは必須です。")) := by
  rcases h with h | h <;> simp [register, h]

/-- Witness for the amended C2 theorem: a username of blanks is rejected
and creates nothing. -/
theorem register_empty_field_rejected_witness :
    register DB.empty .post (Form.mk (some "   ") (some "pw") none none) =
      (DB.empty, .redirect .register (some "ユーザー名とパスワードは必須です。")) :=
  register_empty_field_rejected DB.empty (Form.mk (some "   ") (some "pw") none none)
    (Or.inl (by decide))

/-- C3: from a database holding no user of the submitted (stripped)
username, registering the same form twice makes the second attempt fail
with the conflict notice — username matching being case-sensitive string
equality — and change nothing, and exactly one user with that username
exists afterwards. -/
theorem register_duplicate_username_conflict (db : DB) (form : Form)
    (hu : strip (formGet form.username "") ≠ "")
    (hp : formGet form.password "" ≠ "")
    (hfresh : findUserByName db (strip (formGet form.username "")) = none) :
    (register (register db .post form).1 .post form).1 = (register db .post form).1 ∧
    (register (register db .post form).1 .post form).2 =
      .redirect .register (some "そのユーザー名は既に使われています。") ∧
    ((register db .post form).1.users.filter
        (fun u => u.username = strip (formGet form.username ""))).length = 1 := by
  have h1 : (register db .post form).1 =
      { db with
          users := db.users ++
            [⟨db.nextUserId, strip (formGet form.username ""),
              generate_password_hash (formGet form.password "")⟩]
          nextUserId := db.nextUserId + 1 } := by
    simp [register, hu, hp, hfresh]
  have hfind2 : findUserByName (register db .post form).1
      (strip (formGet form.username "")) =
      some ⟨db.nextUserId, strip (formGet form.username ""),
        generate_password_hash (formGet form.password "")⟩ := by
    rw [h1]
    have : findUserByName db (strip (formGet form.username "")) = none := hfresh
    simp only [findUserByName] at this ⊢
    simp [List.find?_append, this]
  have hnil : db.users.filter
      (fun u => u.username = strip (formGet form.username "")) = [] := by
    rw [List.filter_eq_nil_iff]
    intro a ha
    have := List.find?_eq_none.mp hfresh a ha
    simpa using this
  have hconf : ∀ db2 : DB,
      (findUserByName db2 (strip (formGet form.username ""))).isSome = true →
      register db2 .post form =
        (db2, .redirect .register (some "そのユーザー名は既に使われています。")) := by
    intro db2 hs
    simp [register, hu, hp, hs]
  have hs1 : (findUserByName (register db .post form).1
      (strip (formGet form.username ""))).isSome = true := by
    rw [hfind2]; rfl
  refine ⟨?_, ?_, ?_⟩
  · rw [hconf _ hs1]
  · rw [hconf _ hs1]
  · rw [h1]
    simp [List.filter_append, hnil]

/-- Witness for the C3 theorem: registering `alice` twice on an empty
database. -/
theorem register_duplicate_username_conflict_witness :
    (register (register DB.empty .post (Form.mk (some "alice") (some "pw") none none)).1
        .post (Form.mk (some "alice") (some "pw") none none)).2 =
      Response.redirect .register (some "そのユーザー名は既に使われています。") ∧
    ((register DB.empty .post (Form.mk (some "alice") (some "pw") none none)).1.users.filter
        (fun u => u.username =
          strip (formGet (Form.mk (some "alice") (some "pw") none none).username ""))).length
      = 1 :=
  ⟨(register_duplicate_username_conflict DB.empty
      (Form.mk (some "alice") (some "pw") none none)
      (by decide) (by decide) (by decide)).2.1,
   (register_duplicate_username_conflict DB.empty
      (Form.mk (some "alice") (some "pw") none none)
      (by decide) (by decide) (by decide)).2.2⟩

/-- C4: a POST login with a known (stripped) username and a matching
password binds the session to that user's id and redirects to the memo
list; a login whose username is unknown and a login whose hash check
fails produce the literally identical generic-failure response with the
session unchanged, so the two failure causes are indistinguishable to the
client. -/
theorem login_success_and_generic_failure :
    (∀ (db : DB) (sess : Option Nat) (form : Form) (u : User),
        findUserByName db (strip (formGet form.username "")) = some u →
        check_password_hash u.password_hash (formGet form.password "") = true →
        login db sess .post form = (some u.id, .redirect .index none)) ∧
    (∀ (db : DB) (sess : Option Nat) (form : Form),
        findUserByName db (strip (formGet form.username "")) = none →
        login db sess .post form =
          (sess, .redirect .login (some "ユーザー名またはパスワードが違います。"))) ∧
    (∀ (db : DB) (sess : Option Nat) (form : Form) (u : User),
        findUserByName db (strip (formGet form.username "")) = some u →
        check_password_hash u.password_hash (formGet form.password "") = false →
        login db sess .post form =
          (sess, .redirect .login (some "ユーザー名またはパスワードが違います。"))) := by
  refine ⟨?_, ?_, ?_⟩
  · intro db sess form u hu hc
    simp [login, hu, hc]
  · intro db sess form h
    simp [login, h]
  · intro db sess form u hu hc
    simp [login, hu, hc]

/-- Witness for the C4 theorem: on `dbOne`, the correct pair logs in and
binds the session to id 1, while a wrong password and an unknown username
both yield the one generic failure. -/
theorem login_success_and_generic_failure_witness :
    login dbOne none .post (Form.mk (some "alice") (some "pw123") none none) =
      (some 1, .redirect .index none) ∧
    login dbOne none .post (Form.mk (some "alice") (some "wrong") none none) =
      (none, .redirect .login (some "ユーザー名またはパスワードが違います。")) ∧
    login dbOne none .post (Form.mk (some "mallory") (some "pw123") none none) =
      (none, .redirect .login (some "ユーザー名またはパスワードが違います。")) :=
  ⟨login_success_and_generic_failure.1 dbOne none
      (Form.mk (some "alice") (some "pw123") none none)
      ⟨1, "alice", generate_password_hash "pw123"⟩ (by decide) (by decide),
   login_success_and_generic_failure.2.2 dbOne none
      (Form.mk (some "alice") (some "wrong") none none)
      ⟨1, "alice", generate_password_hash "pw123"⟩ (by decide) (by decide),
   login_success_and_generic_failure.2.1 dbOne none
      (Form.mk (some "mallory") (some "pw123") none none) (by decide)⟩

/-- C5: `index` returns exactly the memos whose `user_id` is the current
user's id, sorted by `created_at` descending; in particular for a store
holding three own memos created at `t1 < t2 < t3` the returned order is
`[t3, t2, t1]`. -/
theorem index_exactly_own_memos_desc (db : DB) (uid : Nat) :
    (∀ m : Memo, m ∈ index db uid ↔ m ∈ db.memos ∧ m.user_id = uid) ∧
    List.Sorted memoDesc (index db uid) ∧
    (∀ (m1 m2 m3 : Memo) (us : List User) (nu nm : Nat),
        m1.user_id = uid → m2.user_id = uid → m3.user_id = uid →
        m1.created_at < m2.created_at → m2.created_at < m3.created_at →
        index ⟨us, [m1, m2, m3], nu, nm⟩ uid = [m3, m2, m1]) := by
  refine ⟨?_, ?_, ?_⟩
  · intro m
    simp [index, List.mem_insertionSort, List.mem_filter]
  · exact List.sorted_insertionSort memoDesc _
  · intro m1 m2 m3 us nu nm h1 h2 h3 h12 h23
    have n12 : ¬ memoDesc m1 m2 := Nat.not_le.mpr h12
    have n13 : ¬ memoDesc m1 m3 := Nat.not_le.mpr (h12.trans h23)
    have n23 : ¬ memoDesc m2 m3 := Nat.not_le.mpr h23
    simp [index, List.insertionSort, List.orderedInsert, h1, h2, h3, n12, n13, n23]

/-- Witness for the C5 theorem: three memos of user 7 created at times
1 < 2 < 3 are listed as time 3, then 2, then 1. -/
theorem index_exactly_own_memos_desc_witness :
    index ⟨[], [⟨1, "a", some "", 1, 7⟩, ⟨2, "b", some "", 2, 7⟩,
        ⟨3, "c", some "", 3, 7⟩], 1, 4⟩ 7 =
      [⟨3, "c", some "", 3, 7⟩, ⟨2, "b", some "", 2, 7⟩, ⟨1, "a", some "", 1, 7⟩] :=
  (index_exactly_own_memos_desc DB.empty 7).2.2
    ⟨1, "a", some "", 1, 7⟩ ⟨2, "b", some "", 2, 7⟩ ⟨3, "c", some "", 3, 7⟩
    [] 1 4 rfl rfl rfl (by decide) (by decide)

/-- C6: a creation whose title strips to empty changes nothing and sends
the user back to the form with the notice; a creation with a non-empty
stripped title appends exactly one new memo owned by the current user
with `created_at = now`, redirects to the list with the success notice,
and the new memo appears in the user's subsequent list. -/
theorem new_memo_create (db : DB) (uid now : Nat) (form : Form) :
    (strip (formGet form.title "") = "" →
      new_memo db uid now .post form =
        (db, .redirect .new_memo (some "タイトルは必須です。"))) ∧
    (strip (formGet form.title "") ≠ "" →
      (new_memo db uid now .post form).2 =
        .redirect .index (some "メモを保存しました。") ∧
      ∃ m : Memo,
        (new_memo db uid now .post form).1.memos = db.memos ++ [m] ∧
        (new_memo db uid now .post form).1.users = db.users ∧
        m.title = strip (formGet form.title "") ∧
        m.user_id = uid ∧
        m.created_at = now ∧
        m ∈ index (new_memo db uid now .post form).1 uid) := by
  constructor
  · intro h
    simp [new_memo, h]
  · intro h
    refine ⟨by simp [new_memo, h],
      ⟨db.nextMemoId, strip (formGet form.title ""),
        some (strip (formGet form.content "")), now, uid⟩,
      by simp [new_memo, h], by simp [new_memo, h], rfl, rfl, rfl, ?_⟩
    simp [new_memo, h, index, List.mem_insertionSort, List.mem_filter]

/-- Witness for the C6 theorem: a whitespace title is rejected on `dbOne`
and a real title is saved. -/
theorem new_memo_create_witness :
    new_memo dbOne 1 11 .post (Form.mk none none (some "  ") (some "x")) =
      (dbOne, .redirect .new_memo (some "タイトルは必須です。")) ∧
    (new_memo dbOne 1 11 .post (Form.mk none none (some "Bread") (some "x"))).2 =
      .redirect .index (some "メモを保存しました。") :=
  ⟨(new_memo_create dbOne 1 11 (Form.mk none none (some "  ") (some "x"))).1 (by decide),
   ((new_memo_create dbOne 1 11 (Form.mk none none (some "Bread") (some "x"))).2
      (by decide)).1⟩

/-- C7: for a memo owned by the current user, a POST to the edit handler
overwrites exactly that memo's `title` and `content` with the stripped
form values — applying no non-empty-title validation, so a title that
strips to empty is written as-is — while the memo's `id`, `user_id` and
`created_at` and every other row are left unchanged. -/
theorem edit_memo_overwrites_title_content (db : DB) (uid memo_id : Nat)
    (form : Form) (m : Memo)
    (hm : get_or_404 db memo_id = some m) (hown : m.user_id = uid) :
    edit_memo db uid memo_id .post form =
      ({ db with
          memos := db.memos.map (fun x =>
            if x.id = memo_id then
              { id := m.id
                title := strip (formGet form.title "")
                content := some (strip (formGet form.content ""))
                created_at := m.created_at
                user_id := m.user_id }
            else x) },
       .redirect .index (some "メモを更新しました。")) := by
  simp [edit_memo, hm, hown, updateMemo]

/-- Witness for the C7 theorem: on `dbOne`, editing memo 1 with a
whitespace title stores the empty title as-is and keeps `id`,
`created_at` and `user_id`. -/
theorem edit_memo_overwrites_title_content_witness :
    edit_memo dbOne 1 1 .post (Form.mk none none (some " ") (some " eggs ")) =
      ({ users := [⟨1, "alice", generate_password_hash "pw123"⟩]
         memos := [⟨1, "", some "eggs", 10, 1⟩]
         nextUserId := 2
         nextMemoId := 2 },
       .redirect .index (some "メモを更新しました。")) := by
  rw [edit_memo_overwrites_title_content dbOne 1 1
      (Form.mk none none (some " ") (some " eggs "))
      ⟨1, "Shopping", some "milk", 10, 1⟩ (by decide) rfl]
  decide

/-- C8: deleting an owned memo removes the row and redirects with the
deletion notice; afterwards both the edit handler and the delete handler
answer the same id — for any requester — with the 404 outcome, which is
distinct from the ownership-mismatch outcome (a silent redirect with a
notice). -/
theorem delete_then_edit_delete_not_found (db : DB) (uid uid2 memo_id : Nat)
    (method : Method) (form : Form) (m : Memo)
    (hm : get_or_404 db memo_id = some m) (hown : m.user_id = uid) :
    (delete_memo db uid memo_id).2 = .redirect .index (some "メモを削除しました。") ∧
    get_or_404 (delete_memo db uid memo_id).1 memo_id = none ∧
    edit_memo (delete_memo db uid memo_id).1 uid2 memo_id method form =
      ((delete_memo db uid memo_id).1, .notFound) ∧
    delete_memo (delete_memo db uid memo_id).1 uid2 memo_id =
      ((delete_memo db uid memo_id).1, .notFound) ∧
    Response.notFound ≠ .redirect .index (some "その操作はできません。") := by
  have hid : m.id = memo_id := by
    have hm2 : List.find? (fun x => decide (x.id = memo_id)) db.memos = some m := hm
    have := List.find?_some hm2
    simpa using this
  have hdel : delete_memo db uid memo_id =
      ({ db with memos := db.memos.filter (fun x => ¬ x.id = m.id) },
       .redirect .index (some "メモを削除しました。")) := by
    simp [delete_memo, hm, hown]
  have hnone : get_or_404 (delete_memo db uid memo_id).1 memo_id = none := by
    rw [hdel]
    simp only [get_or_404]
    rw [List.find?_eq_none]
    intro x hx
    rw [List.mem_filter] at hx
    have hx2 : x.id ≠ m.id := by simpa using hx.2
    simpa [hid] using hx2
  have hedit404 : ∀ db2 : DB, get_or_404 db2 memo_id = none →
      edit_memo db2 uid2 memo_id method form = (db2, .notFound) := by
    intro db2 h2
    simp [edit_memo, h2]
  have hdel404 : ∀ db2 : DB, get_or_404 db2 memo_id = none →
      delete_memo db2 uid2 memo_id = (db2, .notFound) := by
    intro db2 h2
    simp [delete_memo, h2]
  exact ⟨by rw [hdel], hnone, hedit404 _ hnone, hdel404 _ hnone, by decide⟩

/-- Witness for the C8 theorem: the owner deletes memo 1 of `dbOne`, and
an immediate edit of id 1 is answered with 404. -/
theorem delete_then_edit_delete_not_found_witness :
    (delete_memo dbOne 1 1).2 = .redirect .index (some "メモを削除しました。") ∧
    edit_memo (delete_memo dbOne 1 1).1 1 1 .post
        (Form.mk none none (some "t") (some "c")) =
      ((delete_memo dbOne 1 1).1, .notFound) :=
  ⟨(delete_then_edit_delete_not_found dbOne 1 1 1 .post
      (Form.mk none none (some "t") (some "c"))
      ⟨1, "Shopping", some "milk", 10, 1⟩ (by decide) rfl).1,
   (delete_then_edit_delete_not_found dbOne 1 1 1 .post
      (Form.mk none none (some "t") (some "c"))
      ⟨1, "Shopping", some "milk", 10, 1⟩ (by decide) rfl).2.2.1⟩

/-- C10: if every stored memo has non-null content then, after any
request to the create or the edit handler, every stored memo still has
non-null content — both handlers store `some` of the stripped `content`
form value — so although the schema allows NULL, memos written through
the application's own operations never have null content. -/
theorem handlers_preserve_content_not_null (db : DB)
    (h : ∀ m ∈ db.memos, m.content ≠ none) :
    (∀ (uid now : Nat) (method : Method) (form : Form),
        ∀ m ∈ (new_memo db uid now method form).1.memos, m.content ≠ none) ∧
    (∀ (uid memo_id : Nat) (method : Method) (form : Form),
        ∀ m ∈ (edit_memo db uid memo_id method form).1.memos, m.content ≠ none) := by
  constructor
  · intro uid now method form m hm
    cases method with
    | get => exact h m (by simpa [new_memo] using hm)
    | post =>
      by_cases ht : strip (formGet form.title "") = ""
      · exact h m (by simpa [new_memo, ht] using hm)
      · have hm2 : m ∈ db.memos ∨ m =
            (⟨db.nextMemoId, strip (formGet form.title ""),
              some (strip (formGet form.content "")), now, uid⟩ : Memo) := by
          simpa [new_memo, ht] using hm
        rcases hm2 with h1 | h1
        · exact h m h1
        · subst h1; simp
  · intro uid memo_id method form m hm
    cases hg : get_or_404 db memo_id with
    | none => exact h m (by simpa [edit_memo, hg] using hm)
    | some m0 =>
      by_cases hown : m0.user_id ≠ uid
      · exact h m (by simpa [edit_memo, hg, hown] using hm)
      · cases method with
        | get => exact h m (by simpa [edit_memo, hg, hown] using hm)
        | post =>
          have hm2 : m ∈ db.memos.map (fun x =>
              if x.id = memo_id then
                { m0 with
                    title := strip (formGet form.title "")
                    content := some (strip (formGet form.content "")) }
              else x) := by
            simpa [edit_memo, hg, hown, updateMemo] using hm
          rcases List.mem_map.mp hm2 with ⟨x, hx, rfl⟩
          by_cases hxid : x.id = memo_id
          · simp [hxid]
          · simpa [hxid] using h x hx

/-- Witness for the C10 theorem: the memo just created on `dbOne` has
non-null content. -/
theorem handlers_preserve_content_not_null_witness :
    (Memo.content ⟨2, "T", some "", 11, 1⟩) ≠ none :=
  (handlers_preserve_content_not_null dbOne (by decide)).1 1 11 .post
    (Form.mk none none (some "T") none) ⟨2, "T", some "", 11, 1⟩ (by decide)

/-- `escapeChar` never produces the empty list. -/
theorem escapeChar_ne_nil (c : Char) : escapeChar c ≠ [] := by
  unfold escapeChar
  split_ifs <;> simp

/-- A line-boundary character is none of the five escaped characters, so
`escapeChar` keeps it unchanged. -/
theorem escapeChar_of_boundary {c : Char} (h : isLineBoundary c = true) :
    escapeChar c = [c] := by
  unfold escapeChar
  split_ifs with h1 h2 h3 h4 h5
  · subst h1; exact absurd h (by decide)
  · subst h2; exact absurd h (by decide)
  · subst h3; exact absurd h (by decide)
  · subst h4; exact absurd h (by decide)
  · subst h5; exact absurd h (by decide)
  · rfl

/-- `escapeChar` of a non-boundary character yields only non-boundary
characters. -/
theorem escapeChar_not_boundary {c : Char} (h : isLineBoundary c = false) :
    ∀ d ∈ escapeChar c, isLineBoundary d = false := by
  intro d hd
  unfold escapeChar at hd
  split_ifs at hd <;> simp at hd
  · rcases hd with rfl | rfl | rfl | rfl | rfl <;> decide
  · rcases hd with rfl | rfl | rfl | rfl <;> decide
  · rcases hd with rfl | rfl | rfl | rfl <;> decide
  · rcases hd with rfl | rfl | rfl | rfl | rfl <;> decide
  · rcases hd with rfl | rfl | rfl | rfl | rfl <;> decide
  · subst hd; exact h

/-- The escape of a non-empty list is non-empty, and its head is a
newline exactly when the original head is. -/
theorem escapeList_cons_shape (d : Char) (cs : List Char) :
    ∃ e es, escapeList (d :: cs) = e :: es ∧ (e = '\n' ↔ d = '\n') := by
  show ∃ e es, escapeChar d ++ escapeList cs = e :: es ∧ (e = '\n' ↔ d = '\n')
  by_cases h1 : d = '&'
  · subst h1
    exact ⟨'&', ['a', 'm', 'p', ';'] ++ escapeList cs, by simp [escapeChar], by decide⟩
  by_cases h2 : d = '<'
  · subst h2
    exact ⟨'&', ['l', 't', ';'] ++ escapeList cs, by simp [escapeChar], by decide⟩
  by_cases h3 : d = '>'
  · subst h3
    exact ⟨'&', ['g', 't', ';'] ++ escapeList cs, by simp [escapeChar], by decide⟩
  by_cases h4 : d = '\''
  · subst h4
    exact ⟨'&', ['#', '3', '9', ';'] ++ escapeList cs, by simp [escapeChar], by decide⟩
  by_cases h5 : d = '"'
  · subst h5
    exact ⟨'&', ['#', '3', '4', ';'] ++ escapeList cs, by simp [escapeChar], by decide⟩
  · exact ⟨d, escapeList cs, by simp [escapeChar, h1, h2, h3, h4, h5], Iff.rfl⟩

/-- Prepending a block of non-boundary characters extends the first line
of the split. -/
theorem splitlinesList_append_line (pre cs : List Char)
    (hpre : ∀ d ∈ pre, isLineBoundary d = false) :
    splitlinesList (pre ++ cs) =
      match splitlinesList cs with
      | [] => if pre = [] then [] else [pre]
      | l :: ls => (pre ++ l) :: ls := by
  induction pre with
  | nil =>
    cases h : splitlinesList cs with
    | nil => simp [h]
    | cons l ls => simp [h]
  | cons p ps ih =>
    have hp : isLineBoundary p = false := hpre p (List.mem_cons_self p ps)
    have hps : ∀ d ∈ ps, isLineBoundary d = false :=
      fun d hd => hpre d (List.mem_cons_of_mem p hd)
    rw [List.cons_append]
    rw [show splitlinesList (p :: (ps ++ cs)) =
        match splitlinesList (ps ++ cs) with
        | [] => [[p]]
        | l :: ls => (p :: l) :: ls from by rw [splitlinesList.eq_def]; simp [hp]]
    rw [ih hps]
    cases h : splitlinesList cs with
    | nil =>
      cases ps with
      | nil => simp
      | cons q qs => simp
    | cons l ls => simp

/-- `markupsafe.escape` commutes with `str.splitlines`: escaping the
whole string and then splitting gives the same lines as splitting first
and escaping each line. -/
theorem splitlinesList_escapeList (cs : List Char) :
    splitlinesList (escapeList cs) = (splitlinesList cs).map escapeList := by
  induction cs using splitlinesList.induct with
  | case1 => rfl
  | case2 c hc =>
    have he : escapeList [c] = [c] := by
      show escapeChar c ++ escapeList [] = [c]
      rw [escapeChar_of_boundary hc]
      rfl
    rw [he]
    simp [splitlinesList, hc, escapeList]
  | case3 c hc d rest2 hcd ih =>
    obtain ⟨rfl, rfl⟩ := hcd
    have he : escapeList ('\r' :: '\n' :: rest2) = '\r' :: '\n' :: escapeList rest2 := by
      show escapeChar '\r' ++ (escapeChar '\n' ++ escapeList rest2) = _
      rw [escapeChar_of_boundary (c := '\r') (by decide),
        escapeChar_of_boundary (c := '\n') (by decide)]
      rfl
    rw [he]
    have hb : isLineBoundary '\r' = true := by decide
    simp [splitlinesList, hb, ih, escapeList]
  | case4 c hc d rest2 hncd ih =>
    have he : escapeList (c :: d :: rest2) = c :: escapeList (d :: rest2) := by
      show escapeChar c ++ escapeList (d :: rest2) = _
      rw [escapeChar_of_boundary hc]
      rfl
    obtain ⟨e, es, hes, hiff⟩ := escapeList_cons_shape d rest2
    have hne2 : ¬(c = '\r' ∧ e = '\n') := by
      rintro ⟨rfl, he2⟩
      exact hncd ⟨rfl, hiff.mp he2⟩
    rw [he, hes]
    rw [show splitlinesList (c :: e :: es) = [] :: splitlinesList (e :: es) from
      by simp [splitlinesList, hc, hne2]]
    rw [show splitlinesList (c :: d :: rest2) = [] :: splitlinesList (d :: rest2) from
      by simp [splitlinesList, hc, hncd]]
    rw [← hes, ih]
    simp [escapeList]
  | case5 c rest hc hrest ih =>
    have hc' : isLineBoundary c = false := by
      cases h : isLineBoundary c
      · rfl
      · exact absurd h hc
    have he : escapeList (c :: rest) = escapeChar c ++ escapeList rest := rfl
    rw [he, splitlinesList_append_line _ _ (escapeChar_not_boundary hc'), ih, hrest]
    rw [show splitlinesList (c :: rest) =
        match splitlinesList rest with
        | [] => [[c]]
        | l :: ls => (c :: l) :: ls from by rw [splitlinesList.eq_def]; simp [hc']]
    rw [hrest]
    simp [escapeChar_ne_nil c, escapeList]
  | case6 c rest hc l ls hrest ih =>
    have hc' : isLineBoundary c = false := by
      cases h : isLineBoundary c
      · rfl
      · exact absurd h hc
    have he : escapeList (c :: rest) = escapeChar c ++ escapeList rest := rfl
    rw [he, splitlinesList_append_line _ _ (escapeChar_not_boundary hc'), ih, hrest]
    rw [show splitlinesList (c :: rest) =
        match splitlinesList rest with
        | [] => [[c]]
        | l :: ls => (c :: l) :: ls from by rw [splitlinesList.eq_def]; simp [hc']]
    rw [hrest]
    simp [escapeList]

/-- C9 counterexample: the filter joins with `"<br>\n"`, not `"<br>"`, so
`"milk\neggs"` renders as `"milk<br>\neggs"` and not as the claimed
`"milk<br>eggs"`. -/
theorem nl2br_join_marker_cex :
    nl2br_filter (some "milk\neggs") = "milk<br>\neggs" ∧
    nl2br_filter (some "milk\neggs") ≠ "milk<br>eggs" := by
  decide

/-- C9 (amended): `nl2br_filter` returns `""` on null input, and for
every string it escapes the whole string before splitting on line
boundaries and joining — equivalently, the result joins the individually
escaped lines of the raw input, so the inserted markers are never
escaped and escaping never happens after joining.  The join marker is
`"<br>\n"`, so `"milk\neggs"` renders as `"milk<br>\neggs"`, with
markup-significant characters escaped: `"a<b\nc"` renders as
`"a&lt;b<br>\nc"`. -/
theorem nl2br_escapes_before_split (s : String) :
    nl2br_filter none = "" ∧
    nl2br_filter (some s) =
      String.intercalate "<br>\n" ((splitlines s).map escape) ∧
    nl2br_filter (some "milk\neggs") = "milk<br>\neggs" ∧
    nl2br_filter (some "a<b\nc") = "a&lt;b<br>\nc" := by
  refine ⟨rfl, ?_, by decide, by decide⟩
  show String.intercalate "<br>\n" (splitlines (escape s)) = _
  unfold splitlines escape
  rw [show (String.mk (escapeList s.data)).data = escapeList s.data from rfl]
  rw [splitlinesList_escapeList, List.map_map, List.map_map]
  rfl

/-- Witness for the C9 amended theorem at a concrete input. -/
theorem nl2br_escapes_before_split_witness :
    nl2br_filter (some "a<b\nc") = "a&lt;b<br>\nc" :=
  (nl2br_escapes_before_split "a<b\nc").2.2.2

end App
